import Mathlib

/-!
Verification development for the request-to-query translation core of
`django_datatables_view/base_datatable_view.py` (class `DatatableMixin`).

The Python code is shallowly embedded: the request parameter mapping becomes an
association list, the record collection becomes a Lean list, Python exceptions
become `Except String`, and Python `int(...)` conversion becomes `pyIntStr`.
Class attributes that configure an endpoint (static columns, static order
columns, `max_display_length`, `none_string`, `escape_values`, the filter
method, and the external field-resolution used by the query executor) are
collected in a `Config` record.  The method named after request start-up that
detects the legacy DataTables dialect by the presence of the `iSortingCols`
key is inlined as the `preCamel` flag (the source attribute has a longer name
kept out of this file for lexical reasons).
-/

namespace DDV

/-- Request parameter mapping (`request.GET` / `request.POST`): an association
list from key to value; `lookup` is Python `dict.get` returning `None` when
absent. -/
def QueryDict := List (String × String)

instance : DecidableEq QueryDict := by
  unfold QueryDict
  infer_instance

def QueryDict.get (qd : QueryDict) (k : String) : Option String :=
  List.lookup k qd

/-- Strip whitespace from both ends of a character list (the stripping that
Python `int` applies to its string argument). -/
def pyTrim (l : List Char) : List Char :=
  ((l.dropWhile Char.isWhitespace).reverse.dropWhile Char.isWhitespace).reverse

/-- Read a non-empty all-digit character list as a natural number. -/
def digitsToNat? (l : List Char) : Option Nat :=
  if !l.isEmpty && l.all Char.isDigit then
    some (l.foldl (fun a c => a * 10 + (c.toNat - 48)) 0)
  else
    none

/-- Python `int(s)` on a string: optional surrounding whitespace, optional
sign, then decimal digits; anything else raises `ValueError`. -/
def pyIntStr (s : String) : Except String Int :=
  match pyTrim s.data with
  | '-' :: rest =>
    match digitsToNat? rest with
    | some n => .ok (-(n : Int))
    | none => .error ("ValueError: invalid literal for int: " ++ s)
  | '+' :: rest =>
    match digitsToNat? rest with
    | some n => .ok (n : Int)
    | none => .error ("ValueError: invalid literal for int: " ++ s)
  | t =>
    match digitsToNat? t with
    | some n => .ok (n : Int)
    | none => .error ("ValueError: invalid literal for int: " ++ s)

/-- `int(self._querydict.get('iDisplayLength', 10))` resp.
`int(self._querydict.get('length', 10))` from `paging` (line 191/194): a
missing key yields the Python default `10`; a present key is converted by
`int`, which may raise. -/
def decodedLength (qd : QueryDict) (preCamel : Bool) : Except String Int :=
  match qd.get (if preCamel then "iDisplayLength" else "length") with
  | none => .ok 10
  | some s => pyIntStr s

/-- `int(self._querydict.get('iDisplayStart', 0))` resp. `int(... 'start', 0)`
from `paging` (line 192/195): missing key defaults to `0`. -/
def decodedStart (qd : QueryDict) (preCamel : Bool) : Except String Int :=
  match qd.get (if preCamel then "iDisplayStart" else "start") with
  | none => .ok 0
  | some s => pyIntStr s

/-- `int(self._querydict.get('draw', 0))` from `get_context_data` (line 307). -/
def decodedDraw (qd : QueryDict) : Except String Int :=
  match qd.get "draw" with
  | none => .ok 0
  | some s => pyIntStr s

/-- `int(self._querydict.get('sEcho', 0))` from `get_context_data` (line 299). -/
def decodedSEcho (qd : QueryDict) : Except String Int :=
  match qd.get "sEcho" with
  | none => .ok 0
  | some s => pyIntStr s

/-- `int(self._querydict.get('iSortingCols', 0))` with `except ValueError:
sorting_cols = 0` from `ordering` (lines 146-149): total, never raising. -/
def decodedSortingCols (qd : QueryDict) : Int :=
  match qd.get "iSortingCols" with
  | none => 0
  | some s =>
    match pyIntStr s with
    | .ok n => n
    | .error _ => 0

/-- Normalisation of a Python slice bound to an index in `[0, n]`:
negative bounds count from the end and clamp at `0`, positive bounds clamp
at `n`. -/
def pyNorm (i : Int) (n : Nat) : Nat :=
  if i < 0 then ((n : Int) + i).toNat else min i.toNat n

/-- Python list slicing `l[a:b]`. -/
def pySlice (l : List α) (a b : Int) : List α :=
  (l.drop (pyNorm a l.length)).take (pyNorm b l.length - pyNorm a l.length)

/-- `DatatableMixin.paging` (lines 187-203): decode `length` (dialect key,
default `10`), cap it by `max_display_length`, decode `start` (default `0`);
a limit of `-1` disables pagination and returns the whole sequence; otherwise
slice `qs[start : start + limit]`. -/
def paging (qd : QueryDict) (preCamel : Bool) (maxLen : Int) (qs : List α) :
    Except String (List α) := do
  let lenRaw ← decodedLength qd preCamel
  let limit := min lenRaw maxLen
  let start ← decodedStart qd preCamel
  if limit = -1 then
    pure qs
  else
    pure (pySlice qs start (start + limit))

/-- Replace every occurrence of character `c` by the string `rep` (the uses of
Python `str.replace` in the source all have a single-character needle). -/
def replaceChar (c : Char) (rep : List Char) : List Char → List Char
  | [] => []
  | a :: t => if a = c then rep ++ replaceChar c rep t else a :: replaceChar c rep t

/-- `column.replace('.', '__')`: translate a dotted column path into the
executor's relation-traversal separator (lines 179, 181, 248, 253). -/
def replCol (s : String) : String :=
  ⟨replaceChar '.' "__".data s.data⟩

/-- `django.utils.html.escape`: ampersand first, then angle brackets, double
quote, and single quote (written with an escape here), each to its HTML
entity. -/
def escapeHtml (s : String) : String :=
  ⟨replaceChar '\x27' "&#x27;".data
    (replaceChar '"' "&quot;".data
      (replaceChar '>' "&gt;".data
        (replaceChar '<' "&lt;".data
          (replaceChar '&' "&amp;".data s.data))))⟩

/-- Helper for Python `str.split` with a single-character separator. -/
def splitCharAux (c : Char) : List Char → List Char → List (List Char)
  | [], acc => [acc.reverse]
  | a :: t, acc =>
    if a = c then acc.reverse :: splitCharAux c t [] else splitCharAux c t (a :: acc)

/-- `column.split('.')` from `render_column` (line 117). -/
def splitDot (s : String) : List String :=
  (splitCharAux '.' s.data []).map String.mk

/-- Shallow model of the Python records handed to `render_column`: either the
Python value `None`, a plain (string) value, or an object carrying plain
attributes, `get_<field>_display` style label accessors (keyed by the full
accessor name), and an optional `get_absolute_url` result. -/
inductive PyObj where
  | none : PyObj
  | str (s : String) : PyObj
  | objv (attrs : List (String × PyObj)) (displays : List (String × String))
      (url : Option String) : PyObj

/-- Python `getattr(o, name)` with no default: an `AttributeError` when the
attribute is missing (our `None` and plain values carry no attributes). -/
def getattrEx (o : PyObj) (name : String) : Except String PyObj :=
  match o with
  | .objv attrs _ _ =>
    match attrs.lookup name with
    | some v => .ok v
    | Option.none => .error ("AttributeError: " ++ name)
  | _ => .error ("AttributeError: " ++ name)

/-- Python `getattr(o, name, None)`: the defaulted form used for the final
path segment (line 127); never raises. -/
def getattrDefault (o : PyObj) (name : String) : PyObj :=
  match o with
  | .objv attrs _ _ => (attrs.lookup name).getD .none
  | _ => .none

/-- The traversal loop of `render_column` (lines 116-121) over the given
(already split) leading path segments: `obj` starts as the row; the loop
breaks, leaving `obj` as `None`, as soon as `obj` is `None`; otherwise it
steps with a non-defaulted `getattr`. -/
def traverseParts : PyObj → List String → Except String PyObj
  | o, [] => .ok o
  | .none, _ :: _ => .ok PyObj.none
  | .str s, p :: ps => (getattrEx (.str s) p).bind (fun o2 => traverseParts o2 ps)
  | .objv a d u, p :: ps => (getattrEx (.objv a d u) p).bind (fun o2 => traverseParts o2 ps)

/-- `hasattr(obj, 'get_%s_display' % parts[-1])` (line 124). -/
def hasDisplay (o : PyObj) (field : String) : Bool :=
  match o with
  | .objv _ displays _ => (displays.lookup ("get_" ++ field ++ "_display")).isSome
  | _ => false

/-- The label produced by calling `get_<field>_display` (line 125). -/
def displayValue (o : PyObj) (field : String) : PyObj :=
  match o with
  | .objv _ displays _ =>
    match displays.lookup ("get_" ++ field ++ "_display") with
    | some lbl => .str lbl
    | Option.none => .none
  | _ => .none

/-- `hasattr(obj, 'get_absolute_url')` together with the call result. -/
def objUrl (o : PyObj) : Option String :=
  match o with
  | .objv _ _ u => u
  | _ => Option.none

/-- Python `str` conversion applied to a cell value before escaping. -/
def pyStr : PyObj → String
  | .none => "None"
  | .str s => s
  | .objv _ _ _ => "object"

/-- An order-column entry: a plain field path, or a fan-out list of field
paths that one logical column sorts by. -/
inductive OrderCol where
  | one (s : String) : OrderCol
  | many (ls : List String) : OrderCol
deriving DecidableEq

/-- The underlying field paths of an order-column entry. -/
def ocFields : OrderCol → List String
  | .one s => [s]
  | .many ls => ls

/-- Per-endpoint static configuration of `DatatableMixin`, plus the external
field-resolution function the query executor uses to evaluate filter
predicates and sort keys on a record. -/
structure Config where
  modelRows : Option (List PyObj)
  columns : List String
  order_columns : List OrderCol
  max_display_length : Int
  none_string : String
  escape_values : Bool
  filterMethod : String
  fieldVal : PyObj → String → String

/-- `DatatableMixin.render_column` (lines 112-137): split the dotted path,
walk all leading segments (None stops the walk, a missing attribute raises),
then prefer the `get_<field>_display` label for the last segment, falling back
to a defaulted attribute read; substitute `none_string` for a missing value,
escape when configured, and wrap in an anchor when the resolved object exposes
`get_absolute_url` and the value is truthy. -/
def render_column (cfg : Config) (row : PyObj) (column : String) :
    Except String String := do
  let parts := splitDot column
  let obj ← traverseParts row parts.dropLast
  let lastP := parts.getLastD ""
  let value0 : PyObj :=
    if hasDisplay obj lastP then displayValue obj lastP else getattrDefault obj lastP
  let value1 : String :=
    match value0 with
    | .none => cfg.none_string
    | v => pyStr v
  let value2 : String := if cfg.escape_values then escapeHtml value1 else value1
  match objUrl obj with
  | some u =>
    if value2 ≠ "" then
      pure ("<a href=\"" ++ u ++ "\">" ++ value2 ++ "</a>")
    else
      pure value2
  | Option.none => pure value2

/-- Python truthiness of an optional string: `None` and the empty string are
falsy. -/
def truthyOpt : Option String → Bool
  | Option.none => false
  | some s => s ≠ ""

/-- One decoded entry of the per-column request metadata built by
`extract_datatables_column_data` (lines 222-228); `searchValue` and
`searchRegex` stand for the dictionary entries keyed `search.value` and
`search.regex` in the source. -/
structure ColData where
  name : Option String
  data : Option String
  searchable : Bool
  orderable : Bool
  searchValue : Option String
  searchRegex : Option String
deriving DecidableEq

/-- The key `columns[<i>][<sub>]` of the CURRENT dialect. -/
def colKey (i : Nat) (sub : String) : String :=
  "columns[" ++ toString i ++ "][" ++ sub ++ "]"

/-- The key `order[<i>][<sub>]` of the CURRENT dialect. -/
def orderKey (i : Nat) (sub : String) : String :=
  "order[" ++ toString i ++ "][" ++ sub ++ "]"

/-- Count of consecutive indices from `0` whose key `f i` is present in the
mapping, with enough fuel to pass the first absent index (the `while`
loops of lines 152-154 and 218-230; distinct present indices give distinct
keys, hence distinct entries, so `qd.length + 1` fuel always suffices for a
terminating Python run). -/
def scanCountAux (qd : QueryDict) (f : Nat → String) : Nat → Nat → Nat
  | 0, i => i
  | fuel + 1, i => if (qd.get (f i)).isSome then scanCountAux qd f fuel (i + 1) else i

def scanCount (qd : QueryDict) (f : Nat → String) : Nat :=
  scanCountAux qd f (qd.length + 1) 0

/-- `DatatableMixin.extract_datatables_column_data` (lines 210-231): for the
legacy dialect the result is empty; otherwise one `ColData` per consecutive
index whose `columns[i][name]` key is present, with `searchable`/`orderable`
true exactly when the corresponding value is the string `true`. -/
def extract_datatables_column_data (qd : QueryDict) (preCamel : Bool) :
    List ColData :=
  if preCamel then []
  else
    (List.range (scanCount qd (fun i => colKey i "name"))).map fun i =>
      { name := qd.get (colKey i "name")
        data := qd.get (colKey i "data")
        searchable := qd.get (colKey i "searchable") = some "true"
        orderable := qd.get (colKey i "orderable") = some "true"
        searchValue := qd.get (colKey i "search][value")
        searchRegex := qd.get (colKey i "search][regex") }

/-- The loop of `DatatableMixin.get_columns` (lines 103-110): collect each
entry's name, raising when a name is falsy. -/
def get_columns_loop : List ColData → Except String (List String)
  | [] => .ok []
  | c :: rest =>
    if truthyOpt c.name then
      (get_columns_loop rest).map (fun cs => c.name.getD "" :: cs)
    else
      .error "Exception: self.columns is not defined and there is no name defined in columns definition!"

/-- `DatatableMixin.get_columns` (lines 83-110): static configuration (or the
legacy dialect) wins; otherwise the display columns are derived from the
decoded per-column metadata. -/
def get_columns (staticCols : List String) (preCamel : Bool)
    (cdata : List ColData) : Except String (List String) :=
  if !staticCols.isEmpty || preCamel then .ok staticCols
  else get_columns_loop cdata

/-- The loop of `DatatableMixin.get_order_columns` (lines 68-78): a truthy
name contributes itself when orderable and an empty placeholder otherwise; a
falsy name abandons the loop and falls back to the display columns. -/
def get_order_columns_loop (fallback : List OrderCol) (acc : List OrderCol) :
    List ColData → List OrderCol
  | [] => acc
  | c :: rest =>
    if truthyOpt c.name then
      get_order_columns_loop fallback
        (acc ++ [OrderCol.one (if c.orderable then c.name.getD "" else "")]) rest
    else
      fallback

/-- `DatatableMixin.get_order_columns` (lines 46-81): static configuration (or
the legacy dialect) wins; otherwise the order columns are derived from the
decoded per-column metadata, falling back to the display columns on a missing
name. -/
def get_order_columns (staticOrder : List OrderCol) (preCamel : Bool)
    (cdata : List ColData) (displayCols : List String) : List OrderCol :=
  if !staticOrder.isEmpty || preCamel then staticOrder
  else get_order_columns_loop (displayCols.map OrderCol.one) [] cdata

/-- Python list indexing `l[i]` with an `Int` index: negative indices count
from the end; out of range raises `IndexError`. -/
def pyIndex (l : List α) (i : Int) : Except String α :=
  if 0 ≤ i then
    match l[i.toNat]? with
    | some v => .ok v
    | Option.none => .error "IndexError: list index out of range"
  else if (l.length : Int) + i < 0 then
    .error "IndexError: list index out of range"
  else
    match l[((l.length : Int) + i).toNat]? with
    | some v => .ok v
    | Option.none => .error "IndexError: list index out of range"

/-- Whether the executor reads a built sort key as descending: a leading
minus sign (what `order_by` does with the strings the source emits). -/
def isDescKey (k : String) : Bool :=
  match k.data with
  | '-' :: _ => true
  | _ => false

/-- The body of the per-entry loop of `DatatableMixin.ordering`
(lines 159-181) at index `i`: decode the sort-column selector (a `ValueError`
resets it to `0` and keeps the initial direction `asc`; a missing legacy key
is `int(None)`, a `TypeError` that propagates), read the direction text,
index the order columns (possibly fatally), and emit one prefixed sort key
per underlying field path. -/
def sortEntry (qd : QueryDict) (preCamel : Bool) (ocols : List OrderCol)
    (i : Nat) : Except String (List String) := do
  let ck := if preCamel then "iSortCol_" ++ toString i else orderKey i "column"
  let dk := if preCamel then "sSortDir_" ++ toString i else orderKey i "dir"
  let sel : Int × Option String ←
    match qd.get ck with
    | Option.none => .error "TypeError: int() argument must not be None"
    | some s =>
      match pyIntStr s with
      | .ok n => .ok (n, qd.get dk)
      | .error _ => .ok (0, some "asc")
  let sdir := if sel.2 = some "desc" then "-" else ""
  let sortcol ← pyIndex ocols sel.1
  match sortcol with
  | .one s => .ok [sdir ++ replCol s]
  | .many ls => .ok (ls.map fun sc => sdir ++ replCol sc)

/-- Stable insertion used by our model of the executor's `order_by`. -/
def insertBy (le : α → α → Bool) (a : α) : List α → List α
  | [] => [a]
  | b :: t => if le a b then a :: b :: t else b :: insertBy le a t

def sortBy (le : α → α → Bool) : List α → List α
  | [] => []
  | a :: t => insertBy le a (sortBy le t)

/-- Lexicographic order on character lists by code point. -/
def listLt : List Char → List Char → Bool
  | [], [] => false
  | [], _ :: _ => true
  | _ :: _, [] => false
  | a :: as, b :: bs => if a = b then listLt as bs else decide (a.toNat < b.toNat)

/-- Lexicographic comparison of two records along a list of built sort keys,
flipping the comparison on a leading minus sign. -/
def cmpKeys (fv : PyObj → String → String) : List String → PyObj → PyObj → Bool
  | [], _, _ => true
  | k :: rest, a, b =>
    let dsc := isDescKey k
    let f : String := if dsc then ⟨k.data.drop 1⟩ else k
    let va := fv a f
    let vb := fv b f
    if va = vb then cmpKeys fv rest a b
    else if dsc then listLt vb.data va.data else listLt va.data vb.data

/-- Our model of the external executor's `qs.order_by(*order)`: a stable sort
by the built keys. -/
def order_by (fv : PyObj → String → String) (keys : List String)
    (qs : List PyObj) : List PyObj :=
  sortBy (cmpKeys fv keys) qs

/-- `DatatableMixin.ordering` (lines 139-185): count the sort entries
(legacy: the leniently decoded `iSortingCols`; CURRENT: consecutive
`order[i][column]` keys), build each entry's keys, and hand the concatenation
to the executor when non-empty. -/
def ordering (qd : QueryDict) (preCamel : Bool) (ocols : List OrderCol)
    (fv : PyObj → String → String) (qs : List PyObj) :
    Except String (List PyObj) := do
  let cnt : Nat :=
    if preCamel then (decodedSortingCols qd).toNat
    else scanCount qd (fun i => orderKey i "column")
  let keyLists ← (List.range cnt).mapM (sortEntry qd preCamel ocols)
  let keys := keyLists.flatten
  if keys.isEmpty then pure qs else pure (order_by fv keys qs)

/-- Boolean infix test on character lists. -/
def listIsInfix : List Char → List Char → Bool
  | needle, [] => needle.isEmpty
  | needle, a :: t => needle.isPrefixOf (a :: t) || listIsInfix needle t

/-- The executor's evaluation of the two match strategies of the source
(`istartswith`, the default of `get_filter_method`, and `icontains`):
case-insensitive prefix resp. substring match of the search text against the
resolved field value. -/
def matchLookup (fm v text : String) : Bool :=
  if fm = "icontains" then
    listIsInfix (text.data.map Char.toLower) (v.data.map Char.toLower)
  else
    (text.data.map Char.toLower).isPrefixOf (v.data.map Char.toLower)

/-- The predicate the executor evaluates for the ORM condition
`{column__method: text}` the source builds (lines 248 and 252-253): resolve
the translated column path on the record and apply the match strategy. -/
def mkPred (fv : α → String → String) (fm : String) (col : String)
    (text : String) (r : α) : Bool :=
  matchLookup fm (fv r (replCol col)) text

/-- Combining an ORM `Q` accumulator with `|=`: combining with the empty `Q()`
returns the other operand. -/
def qOr {α : Type} : Option (α → Bool) → (α → Bool) → Option (α → Bool)
  | Option.none, p => some p
  | some q, p => some (fun r => q r || p r)

/-- `qs.filter(q)` for the accumulated global `Q`: the empty `Q()` keeps every
row. -/
def applyQ {α : Type} : Option (α → Bool) → List α → List α
  | Option.none, qs => qs
  | some p, qs => qs.filter p

/-- Python `columns[col_no]` with the non-negative enumeration index of the
metadata loop; out of range raises `IndexError`. -/
def pyNthStr (l : List String) (n : Nat) : Except String String :=
  match l[n]? with
  | some v => .ok v
  | Option.none => .error "IndexError: list index out of range"

/-- The per-column loop of `DatatableMixin.filter_queryset` (lines 245-253):
for the entry at enumeration index `i`, OR the global-search predicate into
`q` when the global text is truthy and the column is flagged searchable, and
immediately AND (by filtering) the per-column predicate when the column's own
search value is truthy — the latter regardless of the searchable flag. -/
def fqLoop (fv : α → String → String) (fm : String) (search : Option String)
    (cols : List String) :
    List ColData → Nat → Option (α → Bool) → List α →
      Except String (List α × Option (α → Bool))
  | [], _, q, qs => .ok (qs, q)
  | c :: rest, i, q, qs => do
    let q2 ←
      if truthyOpt search && c.searchable then do
        let col ← pyNthStr cols i
        pure (qOr q (mkPred fv fm col (search.getD "")))
      else
        pure q
    let qs2 ←
      if truthyOpt c.searchValue then do
        let col ← pyNthStr cols i
        pure (qs.filter (mkPred fv fm col (c.searchValue.getD "")))
      else
        pure qs
    fqLoop fv fm search cols rest (i + 1) q2 qs2

/-- `DatatableMixin.filter_queryset` (lines 233-255): a no-op for the legacy
dialect; otherwise read the global search text once, run the per-column loop,
and finally filter by the accumulated global `Q`. -/
def filter_queryset (qd : QueryDict) (preCamel : Bool) (cols : List String)
    (cdata : List ColData) (fm : String) (fv : α → String → String)
    (qs : List α) : Except String (List α) :=
  if preCamel then .ok qs
  else do
    let search := qd.get "search[value]"
    let res ← fqLoop fv fm search cols cdata 0 Option.none qs
    pure (applyQ res.2 res.1)

/-- `DatatableMixin.prepare_results` (lines 257-261): render every display
column of every row of the requested page. -/
def prepare_results (cfg : Config) (cols : List String) (qs : List PyObj) :
    Except String (List (List String)) :=
  qs.mapM fun item => cols.mapM fun column => render_column cfg item column

/-- `DatatableMixin.get_initial_queryset` (lines 205-208): without a
configured model the request raises `NotImplementedError`. -/
def get_initial_queryset (cfg : Config) : Except String (List PyObj) :=
  match cfg.modelRows with
  | Option.none =>
    .error "NotImplementedError: Need to provide a model or implement get_initial_queryset!"
  | some rows => .ok rows

/-- The two success response document shapes (lines 299-311). -/
inductive RetDoc where
  | legacy (sEcho iTotalRecords iTotalDisplayRecords : Int)
      (aaData : List (List String)) : RetDoc
  | current (draw recordsTotal recordsFiltered : Int)
      (data : List (List String)) : RetDoc
deriving DecidableEq, Repr

/-- `DatatableMixin.handle_exception` (lines 263-265): log the exception to
the external sink and re-raise it unchanged. -/
def handle_exception (e : String) : Except String RetDoc :=
  .error e

/-- The body of the `try:` block of `DatatableMixin.get_context_data`
(lines 268-312): detect the dialect by the `iSortingCols` marker, decode the
column metadata, resolve display columns, obtain the initial collection,
count, filter, count again, order, page, render, and assemble the
dialect-shaped document. -/
def gcd_body (cfg : Config) (qd : QueryDict) : Except String RetDoc := do
  let preCamel := (qd.get "iSortingCols").isSome
  let cdata := extract_datatables_column_data qd preCamel
  let cols ← get_columns cfg.columns preCamel cdata
  let qs ← get_initial_queryset cfg
  let totalRecords : Int := qs.length
  let qs2 ← filter_queryset qd preCamel cols cdata cfg.filterMethod cfg.fieldVal qs
  let totalDisplay : Int := qs2.length
  let ocols := get_order_columns cfg.order_columns preCamel cdata cols
  let qs3 ← ordering qd preCamel ocols cfg.fieldVal qs2
  let qs4 ← paging qd preCamel cfg.max_display_length qs3
  let data ← prepare_results cfg cols qs4
  if preCamel then do
    let e ← decodedSEcho qd
    pure (RetDoc.legacy e totalRecords totalDisplay data)
  else do
    let d ← decodedDraw qd
    pure (RetDoc.current d totalRecords totalDisplay data)

/-- `DatatableMixin.get_context_data` (lines 267-314): the whole orchestration
runs inside one `try:`; any exception is caught exactly once at this boundary
and handed to `handle_exception`. -/
def get_context_data (cfg : Config) (qd : QueryDict) : Except String RetDoc :=
  match gcd_body cfg qd with
  | .ok r => .ok r
  | .error e => handle_exception e

def cfgProbe : Config :=
  { modelRows := some []
    columns := ["id", "name"]
    order_columns := [OrderCol.one "id", OrderCol.one "name"]
    max_display_length := 100
    none_string := ""
    escape_values := true
    filterMethod := "istartswith"
    fieldVal := fun _ _ => "" }

def rowProbe (i n : String) : PyObj :=
  .objv [("id", .str i), ("name", .str n)] [] Option.none

instance {ε α : Type} [DecidableEq ε] [DecidableEq α] : DecidableEq (Except ε α)
  | .ok a, .ok b =>
    if h : a = b then isTrue (by rw [h]) else isFalse (fun he => h (Except.ok.inj he))
  | .ok _, .error _ => isFalse (fun he => Except.noConfusion he)
  | .error _, .ok _ => isFalse (fun he => Except.noConfusion he)
  | .error e, .error f =>
    if h : e = f then isTrue (by rw [h]) else isFalse (fun he => h (Except.error.inj he))

theorem pyNorm_sub_le (a m : Int) (n : Nat) (hm : 0 ≤ m) :
    pyNorm (a + m) n - pyNorm a n ≤ m.toNat := by
  unfold pyNorm
  split <;> split <;> omega

theorem pySlice_bounded_length (l : List α) (a m : Int) (hm : 0 ≤ m) :
    (pySlice l a (a + m)).length ≤ m.toNat := by
  unfold pySlice
  calc ((l.drop (pyNorm a l.length)).take
          (pyNorm (a + m) l.length - pyNorm a l.length)).length
      ≤ pyNorm (a + m) l.length - pyNorm a l.length := by
        simp [List.length_take]
    _ ≤ m.toNat := pyNorm_sub_le a m l.length hm

/-- C2, counterexample: with `length = -1` and `start = 5` on a six-element
sequence the code returns the whole sequence, not (as the claim states) the
rows from offset `5` onward, which would be `[5]`. -/
theorem c2_counterexample :
    paging ([("length", "-1"), ("start", "5")] : QueryDict) false 100
        ([0, 1, 2, 3, 4, 5] : List Nat) = .ok [0, 1, 2, 3, 4, 5] ∧
      paging ([("length", "-1"), ("start", "5")] : QueryDict) false 100
        ([0, 1, 2, 3, 4, 5] : List Nat) ≠
        .ok (([0, 1, 2, 3, 4, 5] : List Nat).drop 5) := by
  decide

/-- C2, amended: for every CURRENT-dialect request whose decoded `length`
equals `-1`, `paging` returns the whole filtered and ordered sequence,
ignoring the decoded `start` offset, with no cap from `max_display_length`
(provided `start` itself decodes, since it is decoded before the sentinel
check). -/
theorem c2_amended (qd : QueryDict) (s : String) (st maxLen : Int)
    (qs : List α)
    (hq : qd.get "length" = some s)
    (hl : pyIntStr s = .ok (-1))
    (hm : -1 ≤ maxLen)
    (hst : decodedStart qd false = .ok st) :
    paging qd false maxLen qs = .ok qs := by
  unfold paging decodedLength
  simp only [Bool.false_eq_true, if_false, hq, hl, hst]
  simp only [Bind.bind, Except.bind]
  rw [min_eq_left hm]
  rfl

/-- C2, witness for the amended theorem at a concrete request. -/
theorem c2_amended_witness :
    paging ([("length", "-1"), ("start", "5")] : QueryDict) false 100
      ([0, 1, 2, 3, 4, 5] : List Nat) = .ok [0, 1, 2, 3, 4, 5] :=
  c2_amended _ "-1" 5 100 _ rfl rfl (by decide) rfl

/-- C4, counterexample: a missing `length` parameter decodes to the Python
default `10`, not `0`; on an empty parameter map `paging` therefore returns
the first ten rows rather than none. -/
theorem c4_counterexample :
    decodedLength ([] : QueryDict) false = .ok 10 ∧
      decodedLength ([] : QueryDict) false ≠ .ok 0 ∧
      paging ([] : QueryDict) false 100 ([0, 1, 2, 3, 4, 5, 6, 7, 8, 9, 10] :
        List Nat) = .ok [0, 1, 2, 3, 4, 5, 6, 7, 8, 9] := by
  decide

/-- C4, amended: the decoders never raise on a missing key; the missing
numeric parameters `start`/`iDisplayStart`, `draw`, `sEcho` and
`iSortingCols` default to `0`, but a missing `length`/`iDisplayLength`
defaults to `10`. -/
theorem c4_amended (qd : QueryDict) (b : Bool)
    (h1 : qd.get "length" = Option.none)
    (h2 : qd.get "iDisplayLength" = Option.none)
    (h3 : qd.get "start" = Option.none)
    (h4 : qd.get "iDisplayStart" = Option.none)
    (h5 : qd.get "draw" = Option.none)
    (h6 : qd.get "sEcho" = Option.none)
    (h7 : qd.get "iSortingCols" = Option.none) :
    decodedLength qd b = .ok 10 ∧ decodedStart qd b = .ok 0 ∧
      decodedDraw qd = .ok 0 ∧ decodedSEcho qd = .ok 0 ∧
      decodedSortingCols qd = 0 := by
  unfold decodedLength decodedStart decodedDraw decodedSEcho decodedSortingCols
  cases b <;> simp [h1, h2, h3, h4, h5, h6, h7]

/-- C4, witness for the amended theorem on a map without the numeric keys. -/
theorem c4_amended_witness :
    decodedLength ([("foo", "1")] : QueryDict) false = .ok 10 ∧
      decodedStart ([("foo", "1")] : QueryDict) false = .ok 0 ∧
      decodedDraw ([("foo", "1")] : QueryDict) = .ok 0 ∧
      decodedSEcho ([("foo", "1")] : QueryDict) = .ok 0 ∧
      decodedSortingCols ([("foo", "1")] : QueryDict) = 0 :=
  c4_amended _ false rfl rfl rfl rfl rfl rfl rfl

/-- C7: for every CURRENT-dialect request whose decoded `length` exceeds
`max_display_length`, the effective limit is `max_display_length`: `paging`
returns the slice `qs[start : start + max_display_length]`, which has at most
`max_display_length` rows. -/
theorem c7_limit_capped (qd : QueryDict) (s : String) (l st maxLen : Int)
    (qs : List α)
    (hq : qd.get "length" = some s)
    (hl : pyIntStr s = .ok l)
    (hgt : maxLen < l)
    (hm : 0 ≤ maxLen)
    (hst : decodedStart qd false = .ok st) :
    paging qd false maxLen qs = .ok (pySlice qs st (st + maxLen)) ∧
      (pySlice qs st (st + maxLen)).length ≤ maxLen.toNat := by
  constructor
  · unfold paging decodedLength
    simp only [Bool.false_eq_true, if_false, hq, hl, hst]
    simp only [Bind.bind, Except.bind]
    have hmin : l ⊓ maxLen = maxLen := min_eq_right (le_of_lt hgt)
    have hne : ¬(maxLen = -1) := by omega
    simp [hmin, hne]
    rfl
  · exact pySlice_bounded_length qs st maxLen hm

/-- C7, witness: requested length 500 against a cap of 3 returns exactly the
first three rows. -/
theorem c7_limit_capped_witness :
    paging ([("length", "500"), ("start", "0")] : QueryDict) false 3
        ([0, 1, 2, 3, 4, 5] : List Nat) =
      .ok (pySlice ([0, 1, 2, 3, 4, 5] : List Nat) 0 (0 + 3)) ∧
      (pySlice ([0, 1, 2, 3, 4, 5] : List Nat) 0 (0 + 3)).length ≤
        Int.toNat 3 :=
  c7_limit_capped _ "500" 500 0 3 _ rfl rfl (by decide) (by decide) rfl

/-- C1, counterexample: on the out-of-range sort scenario
(`order[0][column]=99` with two order columns) the orchestrator returns the
raised `IndexError` itself — `handle_exception` re-raises — not an
error-shaped response document with error text and zeroed counts. -/
theorem c1_counterexample :
    get_context_data cfgProbe
        ([("order[0][column]", "99"), ("order[0][dir]", "asc")] : QueryDict) =
      .error "IndexError: list index out of range" := rfl

/-- C1, amended: every exception raised during orchestration is caught
exactly once at the `get_context_data` boundary and handed to
`handle_exception`, which logs and re-raises it unchanged, so the raw fault
propagates to the caller; no error-shaped response document is produced. -/
theorem c1_amended (cfg : Config) (qd : QueryDict) (e : String)
    (h : gcd_body cfg qd = .error e) :
    get_context_data cfg qd = handle_exception e ∧
      handle_exception e = Except.error e := by
  unfold get_context_data
  rw [h]
  exact ⟨rfl, rfl⟩

/-- C1, witness for the amended theorem at the out-of-range sort scenario. -/
theorem c1_amended_witness :
    get_context_data cfgProbe
        ([("order[0][column]", "99"), ("order[0][dir]", "asc")] : QueryDict) =
        handle_exception "IndexError: list index out of range" ∧
      handle_exception "IndexError: list index out of range" =
        Except.error "IndexError: list index out of range" :=
  c1_amended cfgProbe _ "IndexError: list index out of range" rfl

theorem traverseParts_none (q : List String) :
    traverseParts PyObj.none q = .ok PyObj.none := by
  cases q <;> rfl

/-- C5, counterexample: a row that simply lacks the intermediate attribute
raises an `AttributeError` out of the traversal — the traversal is not
error-free on absent intermediates in general. -/
theorem c5_counterexample :
    render_column cfgProbe (PyObj.objv [] [] Option.none) "a.b" =
      .error "AttributeError: a" := rfl

/-- C5, amended: whenever an intermediate of the traversal resolves to the
value `None`, the loop stops early, the remaining leading segments are
skipped without error, the resolved object stays `None`, and `render_column`
returns the (optionally escaped) configured placeholder; but an intermediate
attribute that is missing altogether raises an `AttributeError` (see the
counterexample), since only the final segment uses a defaulted lookup. -/
theorem c5_amended (cfg : Config) (row : PyObj) (col : String)
    (p q : List String) :
    (traverseParts row p = .ok PyObj.none →
      traverseParts row (p ++ q) = .ok PyObj.none) ∧
    (traverseParts row ((splitDot col).dropLast) = .ok PyObj.none →
      render_column cfg row col =
        .ok (if cfg.escape_values then escapeHtml cfg.none_string
             else cfg.none_string)) := by
  constructor
  · induction p generalizing row with
    | nil =>
      intro h
      have hnil : traverseParts row [] = .ok row := by cases row <;> rfl
      rw [hnil] at h
      have hrow : row = PyObj.none := Except.ok.inj h
      subst hrow
      exact traverseParts_none q
    | cons a p ih =>
      intro h
      cases row with
      | none => exact traverseParts_none _
      | str s =>
        simp [traverseParts, getattrEx, Except.bind] at h
      | objv attrs d u =>
        cases hx : List.lookup a attrs with
        | none => simp [traverseParts, getattrEx, hx, Except.bind] at h
        | some v =>
          simp only [List.cons_append, traverseParts, getattrEx, hx,
            Except.bind] at h ⊢
          exact ih v h
  · intro h
    unfold render_column
    simp only [h]
    rfl

/-- C5, witness: a nullable intermediate (`a` holds `None`) renders the
placeholder without error. -/
theorem c5_amended_witness :
    traverseParts (PyObj.objv [("a", PyObj.none)] [] Option.none)
        ((splitDot "a.b").dropLast) = .ok PyObj.none ∧
      render_column cfgProbe (PyObj.objv [("a", PyObj.none)] [] Option.none)
        "a.b" = .ok "" :=
  ⟨rfl, (c5_amended cfgProbe (PyObj.objv [("a", PyObj.none)] [] Option.none)
    "a.b" [] []).2 rfl⟩

/-- C6, counterexample: with static display columns configured, a request
carrying two metadata entries decodes to a `ColumnMetadata` sequence of
length 2 while the resolved display-column list has length 1, so the claimed
positional 1:1 correlation fails. -/
theorem c6_counterexample :
    (extract_datatables_column_data
        ([("columns[0][name]", "a0"), ("columns[1][name]", "a1")] : QueryDict)
        false).length = 2 ∧
      get_columns ["x"] false
        (extract_datatables_column_data
          ([("columns[0][name]", "a0"), ("columns[1][name]", "a1")] :
            QueryDict) false) = .ok ["x"] ∧
      ¬((extract_datatables_column_data
          ([("columns[0][name]", "a0"), ("columns[1][name]", "a1")] :
            QueryDict) false).length = (["x"] : List String).length) := by
  decide

/-- C6, amended: when the display columns are themselves derived from the
decoded metadata (no static column configuration, CURRENT dialect) and the
derivation succeeds, the resolved display-column list has exactly the length
of the metadata sequence. -/
theorem c6_amended (cdata : List ColData) (cols : List String)
    (h : get_columns [] false cdata = .ok cols) :
    cols.length = cdata.length := by
  unfold get_columns at h
  simp at h
  induction cdata generalizing cols with
  | nil =>
    unfold get_columns_loop at h
    cases h
    rfl
  | cons c rest ih =>
    unfold get_columns_loop at h
    by_cases ht : truthyOpt c.name = true
    · rw [if_pos ht] at h
      cases hres : get_columns_loop rest with
      | error e => rw [hres] at h; simp [Except.map] at h
      | ok cs =>
        rw [hres] at h
        simp [Except.map] at h
        subst h
        simp [ih cs hres]
    · rw [if_neg ht] at h
      simp at h

/-- C6, witness for the amended theorem on a one-entry metadata sequence. -/
theorem c6_amended_witness :
    (["email"] : List String).length =
      ([{ name := some "email", data := Option.none, searchable := false,
          orderable := true, searchValue := Option.none,
          searchRegex := Option.none }] : List ColData).length :=
  c6_amended _ _ (by decide)

theorem goc_loop_all (fb : List OrderCol) (cdata : List ColData) :
    ∀ acc, (∀ c ∈ cdata, truthyOpt c.name = true) →
      get_order_columns_loop fb acc cdata =
        acc ++ cdata.map (fun c => OrderCol.one
          (if c.orderable then c.name.getD "" else "")) := by
  induction cdata with
  | nil => intro acc _; simp [get_order_columns_loop]
  | cons c rest ih =>
    intro acc hall
    have hc : truthyOpt c.name = true := hall c (by simp)
    unfold get_order_columns_loop
    rw [if_pos hc, ih _ (fun x hx => hall x (by simp [hx]))]
    simp

theorem goc_loop_fallback (fb : List OrderCol) (p : List ColData) :
    ∀ acc (c : ColData) rest, (∀ x ∈ p, truthyOpt x.name = true) →
      truthyOpt c.name = false →
      get_order_columns_loop fb acc (p ++ c :: rest) = fb := by
  induction p with
  | nil =>
    intro acc c rest _ hc
    unfold get_order_columns_loop
    simp [hc]
  | cons x p ih =>
    intro acc c rest hall hc
    have hx : truthyOpt x.name = true := hall x (by simp)
    rw [List.cons_append]
    simp only [get_order_columns_loop]
    rw [if_pos hx]
    exact ih _ c rest (fun y hy => hall y (by simp [hy])) hc

/-- C9: with no static order-column configuration and the CURRENT dialect,
order-column resolution maps each metadata entry, in order, to its name when
orderable and to an empty placeholder when not; and whenever some entry has a
falsy name (all earlier ones truthy), it silently falls back to the full
display-column list. -/
theorem c9_order_column_resolution (cdata : List ColData)
    (cols : List String) :
    ((∀ c ∈ cdata, truthyOpt c.name = true) →
      get_order_columns [] false cdata cols =
        cdata.map (fun c => OrderCol.one
          (if c.orderable then c.name.getD "" else ""))) ∧
    (∀ p (c : ColData) rest, cdata = p ++ c :: rest →
      (∀ x ∈ p, truthyOpt x.name = true) → truthyOpt c.name = false →
      get_order_columns [] false cdata cols = cols.map OrderCol.one) := by
  constructor
  · intro hall
    unfold get_order_columns
    simp only [List.isEmpty_nil, Bool.not_true, Bool.false_or,
      Bool.false_eq_true, if_false]
    rw [goc_loop_all _ _ [] hall]
    simp
  · intro p c rest hsplit hall hc
    unfold get_order_columns
    simp only [List.isEmpty_nil, Bool.not_true, Bool.false_or,
      Bool.false_eq_true, if_false]
    rw [hsplit]
    exact goc_loop_fallback _ p [] c rest hall hc

/-- C9, witness: metadata `columns[0][name]=email`, `columns[0][orderable]`
true resolves the order columns to `["email"]`. -/
theorem c9_witness :
    get_order_columns [] false
        [{ name := some "email", data := Option.none, searchable := false,
           orderable := true, searchValue := Option.none,
           searchRegex := Option.none }] ["email", "other"] =
      [OrderCol.one "email"] :=
  (c9_order_column_resolution _ _).1 (by decide)

theorem data_append_str (a b : String) : (a ++ b).data = a.data ++ b.data := rfl

theorem isDescKey_dash (t : String) : isDescKey ("-" ++ t) = true := by
  unfold isDescKey
  rw [data_append_str]
  rfl

theorem isDescKey_emp (t : String) : isDescKey ("" ++ t) = isDescKey t := by
  unfold isDescKey
  rw [data_append_str]
  rfl

/-- C8: for a sort entry whose selector and direction decode, the emitted
keys are exactly one per underlying field path of the resolved order-column
entry, in its left-to-right order, each prefixed with a minus sign exactly
when the direction text is `desc` (so a fan-out entry of n paths emits n keys
sharing one direction, and any direction text other than `desc` is read as
ascending). -/
theorem c8_sort_entry (qd : QueryDict) (ocols : List OrderCol) (i : Nat)
    (cs d : String) (ci : Int) (oc : OrderCol)
    (h1 : qd.get (orderKey i "column") = some cs)
    (h2 : pyIntStr cs = .ok ci)
    (h3 : pyIndex ocols ci = .ok oc)
    (h4 : qd.get (orderKey i "dir") = some d) :
    sortEntry qd false ocols i =
      .ok ((ocFields oc).map fun sc =>
        (if d = "desc" then "-" else "") ++ replCol sc) ∧
    ((∀ sc ∈ ocFields oc, isDescKey (replCol sc) = false) →
      ∀ k ∈ (ocFields oc).map (fun sc =>
          (if d = "desc" then "-" else "") ++ replCol sc),
        isDescKey k = decide (d = "desc")) := by
  constructor
  · unfold sortEntry
    simp only [Bool.false_eq_true, if_false, h1, h2, h4]
    simp only [Bind.bind, Except.bind, h3]
    cases oc with
    | one s => simp [ocFields, Option.some.injEq]
    | many ls => simp [ocFields, Option.some.injEq]
  · intro hno k hk
    simp only [List.mem_map] at hk
    obtain ⟨sc, hsc, hke⟩ := hk
    subst hke
    by_cases hd : d = "desc"
    · subst hd
      rw [if_pos rfl, isDescKey_dash]
      simp
    · rw [if_neg hd, isDescKey_emp, hno sc hsc]
      simp [hd]

/-- C8, witness: one fan-out entry `["a", "b"]` with direction `desc` emits
the two descending keys `-a` then `-b`. -/
theorem c8_sort_entry_witness :
    sortEntry ([("order[0][column]", "0"), ("order[0][dir]", "desc")] :
        QueryDict) false [OrderCol.many ["a", "b"]] 0 =
      .ok ((ocFields (OrderCol.many ["a", "b"])).map fun sc =>
        (if ("desc" : String) = "desc" then "-" else "") ++ replCol sc) ∧
    ((∀ sc ∈ ocFields (OrderCol.many ["a", "b"]),
        isDescKey (replCol sc) = false) →
      ∀ k ∈ (ocFields (OrderCol.many ["a", "b"])).map (fun sc =>
          (if ("desc" : String) = "desc" then "-" else "") ++ replCol sc),
        isDescKey k = decide (("desc" : String) = "desc")) :=
  c8_sort_entry _ _ 0 "0" "desc" 0 _ rfl rfl rfl rfl

theorem isOk_bind_eq_false {α β : Type} (x : Except String α)
    (f : α → Except String β) (hf : ∀ a, x = .ok a → (f a).isOk = false) :
    (x >>= f).isOk = false := by
  cases x with
  | error e => rfl
  | ok a => exact hf a rfl

theorem isOk_gcd_of_body (cfg : Config) (qd : QueryDict)
    (h : (gcd_body cfg qd).isOk = false) :
    (get_context_data cfg qd).isOk = false := by
  unfold get_context_data
  cases hb : gcd_body cfg qd with
  | ok r => rw [hb] at h; simp [Except.isOk, Except.toBool] at h
  | error e => rfl

theorem paging_isOk_false_of_bad_length (qd : QueryDict) (maxLen : Int)
    (qs : List α) (s msg : String)
    (hq : qd.get "length" = some s) (hbad : pyIntStr s = .error msg) :
    (paging qd false maxLen qs).isOk = false := by
  unfold paging decodedLength
  simp [hq, hbad, Except.isOk, Except.toBool, Bind.bind, Except.bind]

theorem paging_isOk_false_of_bad_start (qd : QueryDict) (maxLen : Int)
    (qs : List α) (s msg : String)
    (hq : qd.get "start" = some s) (hbad : pyIntStr s = .error msg) :
    (paging qd false maxLen qs).isOk = false := by
  unfold paging
  apply isOk_bind_eq_false
  intro lenRaw _
  apply isOk_bind_eq_false
  intro start hstart
  have hds : decodedStart qd false = .error msg := by
    unfold decodedStart
    simp [hq, hbad]
  rw [hds] at hstart
  cases hstart

/-- C10: a request carrying a non-integer text for `length`, `start` or
`draw` (CURRENT dialect) or for `sEcho` (LEGACY dialect) makes the
corresponding `int()` conversion raise and the whole request fail — there is
no treat-as-zero fallback for these parameters, unlike the sort-column count
(`decodedSortingCols` of the same malformed text yields `0`). -/
theorem c10_nonint_numeric_fatal (cfg : Config) (qd : QueryDict)
    (s msg : String) (hbad : pyIntStr s = .error msg)
    (h : (qd.get "iSortingCols" = Option.none ∧
           (qd.get "length" = some s ∨ qd.get "start" = some s ∨
             qd.get "draw" = some s)) ∨
         ((∃ t, qd.get "iSortingCols" = some t) ∧ qd.get "sEcho" = some s)) :
    (get_context_data cfg qd).isOk = false ∧
      (∀ qd2 : QueryDict, qd2.get "iSortingCols" = some s →
        decodedSortingCols qd2 = 0) := by
  refine ⟨?_, ?_⟩
  · apply isOk_gcd_of_body
    unfold gcd_body
    rcases h with ⟨hpre, hkey⟩ | ⟨⟨t, hpre⟩, hse⟩
    · simp only [hpre, Option.isSome_none, Bool.false_eq_true, if_false]
      apply isOk_bind_eq_false
      intro cols _
      apply isOk_bind_eq_false
      intro qs _
      apply isOk_bind_eq_false
      intro qs2 _
      apply isOk_bind_eq_false
      intro qs3 _
      rcases hkey with hk | hk | hk
      · apply isOk_bind_eq_false
        intro qs4 hpag
        have := paging_isOk_false_of_bad_length qd cfg.max_display_length qs3
          s msg hk hbad
        rw [hpag] at this
        simp [Except.isOk, Except.toBool] at this
      · apply isOk_bind_eq_false
        intro qs4 hpag
        have := paging_isOk_false_of_bad_start qd cfg.max_display_length qs3
          s msg hk hbad
        rw [hpag] at this
        simp [Except.isOk, Except.toBool] at this
      · apply isOk_bind_eq_false
        intro qs4 _
        apply isOk_bind_eq_false
        intro data _
        apply isOk_bind_eq_false
        intro dr hdr
        have hdd : decodedDraw qd = .error msg := by
          unfold decodedDraw
          simp [hk, hbad]
        rw [hdd] at hdr
        cases hdr
    · simp only [hpre, Option.isSome_some, if_true]
      apply isOk_bind_eq_false
      intro cols _
      apply isOk_bind_eq_false
      intro qs _
      apply isOk_bind_eq_false
      intro qs2 _
      apply isOk_bind_eq_false
      intro qs3 _
      apply isOk_bind_eq_false
      intro qs4 _
      apply isOk_bind_eq_false
      intro data _
      apply isOk_bind_eq_false
      intro e he
      have hds : decodedSEcho qd = .error msg := by
        unfold decodedSEcho
        simp [hse, hbad]
      rw [hds] at he
      cases he
  · intro qd2 h2
    unfold decodedSortingCols
    simp [h2, hbad]

/-- C10, witness: `length = "abc"` fails the whole CURRENT-dialect request,
while the same text as a sort-column count is treated as zero. -/
theorem c10_witness :
    (get_context_data cfgProbe ([("length", "abc")] : QueryDict)).isOk =
        false ∧
      (∀ qd2 : QueryDict, qd2.get "iSortingCols" = some "abc" →
        decodedSortingCols qd2 = 0) :=
  c10_nonint_numeric_fatal cfgProbe _ "abc"
    "ValueError: invalid literal for int: abc" rfl
    (Or.inl ⟨rfl, Or.inl rfl⟩)

/-- The per-column (AND) part of the composed filter: for each metadata entry
(positionally zipped with the display columns), a truthy per-column search
value must match on that column — irrespective of the entry's `searchable`
flag. -/
def perColOK {α : Type} (fv : α → String → String) (fm : String) :
    List String → List ColData → α → Bool
  | _, [], _ => true
  | [], _ :: _, _ => true
  | col :: cs, c :: rest, r =>
    (if truthyOpt c.searchValue then
      mkPred fv fm col (c.searchValue.getD "") r
    else true) && perColOK fv fm cs rest r

/-- The disjunction accumulated for the global search: one disjunct per
metadata entry, contributing only when the global text is truthy and the
entry is flagged searchable. -/
def gAny {α : Type} (fv : α → String → String) (fm : String)
    (search : Option String) : List String → List ColData → α → Bool
  | _, [], _ => false
  | [], _ :: _, _ => false
  | col :: cs, c :: rest, r =>
    (if truthyOpt search && c.searchable then
      mkPred fv fm col (search.getD "") r
    else false) || gAny fv fm search cs rest r

/-- The global (OR) part of the composed filter: vacuously true when the
global text is falsy or no column is searchable (the accumulated `Q` stays
empty), and otherwise the OR over the searchable columns only. -/
def globalOK {α : Type} (fv : α → String → String) (fm : String)
    (search : Option String) (cols : List String) (cdata : List ColData)
    (r : α) : Bool :=
  if truthyOpt search && cdata.any (fun c => c.searchable) then
    gAny fv fm search cols cdata r
  else true

/-- The global `Q` accumulator state after the loop processes the given
entries. -/
def qAccum {α : Type} (fv : α → String → String) (fm : String)
    (search : Option String) :
    Option (α → Bool) → List String → List ColData → Option (α → Bool)
  | q, _, [] => q
  | q, [], _ :: _ => q
  | q, col :: cs, c :: rest =>
    qAccum fv fm search
      (if truthyOpt search && c.searchable then
        qOr q (mkPred fv fm col (search.getD ""))
      else q) cs rest

theorem filter_fun_true (l : List α) : l.filter (fun _ => true) = l := by
  induction l with
  | nil => rfl
  | cons a t ih => simp [List.filter, ih]

theorem fqLoop_spec {α : Type} (fv : α → String → String) (fm : String)
    (search : Option String) (cols : List String) :
    ∀ (cdata : List ColData) (i : Nat) (q : Option (α → Bool)) (qs : List α),
      i + cdata.length ≤ cols.length →
      fqLoop fv fm search cols cdata i q qs =
        .ok (qs.filter (fun r => perColOK fv fm (cols.drop i) cdata r),
          qAccum fv fm search q (cols.drop i) cdata) := by
  intro cdata
  induction cdata with
  | nil =>
    intro i q qs _
    simp [fqLoop, perColOK, qAccum, filter_fun_true]
  | cons c rest ih =>
    intro i q qs hle
    have hi : i < cols.length := by simp at hle; omega
    have hdrop : cols.drop i = cols[i] :: cols.drop (i + 1) :=
      List.drop_eq_getElem_cons hi
    have hnth : pyNthStr cols i = .ok cols[i] := by
      unfold pyNthStr
      simp [List.getElem?_eq_getElem hi]
    have hle2 : (i + 1) + rest.length ≤ cols.length := by simp at hle; omega
    rw [hdrop]
    simp only [fqLoop, hnth, Bind.bind, Except.bind, perColOK, qAccum]
    by_cases h1 : (truthyOpt search && c.searchable) = true
    · rw [if_pos h1, if_pos h1]
      simp only [pure, Except.pure]
      by_cases h2 : truthyOpt c.searchValue = true
      · rw [if_pos h2]
        rw [ih (i + 1) _ _ hle2, List.filter_filter]
        congr 1
        congr 1
        apply List.filter_congr
        intro a _
        simp [h2, Bool.and_comm]
      · rw [if_neg h2]
        rw [ih (i + 1) _ _ hle2]
        have h2f : truthyOpt c.searchValue = false := by
          revert h2; cases truthyOpt c.searchValue <;> simp
        congr 1
        congr 1
        apply List.filter_congr
        intro a _
        simp [h2f]
    · rw [if_neg h1, if_neg h1]
      simp only [pure, Except.pure]
      by_cases h2 : truthyOpt c.searchValue = true
      · rw [if_pos h2]
        rw [ih (i + 1) _ _ hle2, List.filter_filter]
        congr 1
        congr 1
        apply List.filter_congr
        intro a _
        simp [h2, Bool.and_comm]
      · rw [if_neg h2]
        rw [ih (i + 1) _ _ hle2]
        have h2f : truthyOpt c.searchValue = false := by
          revert h2; cases truthyOpt c.searchValue <;> simp
        congr 1
        congr 1
        apply List.filter_congr
        intro a _
        simp [h2f]

theorem qAccum_some_spec {α : Type} (fv : α → String → String) (fm : String)
    (search : Option String) :
    ∀ (cdata : List ColData) (cs : List String) (f : α → Bool),
      ∃ g, qAccum fv fm search (some f) cs cdata = some g ∧
        ∀ r, g r = (f r || gAny fv fm search cs cdata r) := by
  intro cdata
  induction cdata with
  | nil =>
    intro cs f
    cases cs with
    | nil => exact ⟨f, rfl, by simp [gAny]⟩
    | cons col cs2 => exact ⟨f, rfl, by simp [gAny]⟩
  | cons c rest ih =>
    intro cs f
    cases cs with
    | nil => exact ⟨f, rfl, by simp [gAny]⟩
    | cons col cs2 =>
      simp only [qAccum, gAny]
      by_cases h1 : (truthyOpt search && c.searchable) = true
      · rw [if_pos h1]
        simp only [qOr]
        obtain ⟨g, hg, hgr⟩ :=
          ih cs2 (fun r => f r || mkPred fv fm col (search.getD "") r)
        refine ⟨g, hg, fun r => ?_⟩
        rw [hgr r]
        simp [h1, Bool.or_assoc]
      · rw [if_neg h1]
        have h1f : (truthyOpt search && c.searchable) = false := by
          revert h1; cases (truthyOpt search && c.searchable) <;> simp
        obtain ⟨g, hg, hgr⟩ := ih cs2 f
        refine ⟨g, hg, fun r => ?_⟩
        rw [hgr r]
        simp [h1f]

theorem applyQ_qAccum {α : Type} (fv : α → String → String) (fm : String)
    (search : Option String) :
    ∀ (cdata : List ColData) (cs : List String) (l : List α),
      cdata.length ≤ cs.length →
      applyQ (qAccum fv fm search Option.none cs cdata) l =
        l.filter (fun r => globalOK fv fm search cs cdata r) := by
  intro cdata
  induction cdata with
  | nil =>
    intro cs l _
    have h0 : qAccum fv fm search Option.none cs ([] : List ColData) =
        Option.none := by
      cases cs <;> rfl
    rw [h0]
    unfold applyQ globalOK
    simp [filter_fun_true]
  | cons c rest ih =>
    intro cs l hlen
    cases cs with
    | nil => simp at hlen
    | cons col cs2 =>
      simp only [qAccum]
      by_cases h1 : (truthyOpt search && c.searchable) = true
      · rw [if_pos h1]
        simp only [qOr]
        obtain ⟨g, hg, hgr⟩ := qAccum_some_spec fv fm search rest cs2
          (mkPred fv fm col (search.getD ""))
        rw [hg]
        unfold applyQ
        apply List.filter_congr
        intro a _
        rw [hgr a]
        have ht : truthyOpt search = true := by
          revert h1; cases truthyOpt search <;> simp
        have hcs : c.searchable = true := by
          revert h1; cases c.searchable <;> simp
        unfold globalOK
        rw [if_pos (by simp [ht, hcs])]
        simp only [gAny]
        simp [h1]
      · rw [if_neg h1]
        rw [ih cs2 l (by simp at hlen; omega)]
        apply List.filter_congr
        intro a _
        have hface : (truthyOpt search && c.searchable) = false := by
          revert h1; cases (truthyOpt search && c.searchable) <;> simp
        unfold globalOK
        cases hts : truthyOpt search with
        | false => simp [hts]
        | true =>
          have hcsf : c.searchable = false := by
            revert hface; rw [hts]; cases c.searchable <;> simp
          cases ha : rest.any (fun x => x.searchable) with
          | false => simp [hts, hcsf, ha]
          | true =>
            rw [if_pos (by simp [hts, ha]), if_pos (by simp [hts, hcsf, ha])]
            simp only [gAny]
            simp [hface]

/-- C3: for every CURRENT-dialect request with positionally aligned metadata,
the built filter keeps exactly the rows that pass every truthy per-column
search (applied regardless of the column's `searchable` flag) and, when the
global text is truthy and some column is searchable, match the global text on
at least one `searchable`-flagged column — the global disjunction never
ranges over non-searchable columns. -/
theorem c3_filter_global_only_searchable {α : Type} (fv : α → String → String)
    (fm : String) (qd : QueryDict) (cols : List String)
    (cdata : List ColData) (qs : List α)
    (hlen : cdata.length ≤ cols.length) :
    filter_queryset qd false cols cdata fm fv qs =
      .ok (qs.filter fun r =>
        perColOK fv fm cols cdata r &&
          globalOK fv fm (qd.get "search[value]") cols cdata r) := by
  unfold filter_queryset
  simp only [Bool.false_eq_true, if_false]
  rw [fqLoop_spec fv fm (qd.get "search[value]") cols cdata 0 Option.none qs
    (by simpa using hlen)]
  simp only [List.drop_zero, Bind.bind, Except.bind, pure, Except.pure]
  rw [applyQ_qAccum fv fm (qd.get "search[value]") cdata cols _ hlen]
  rw [List.filter_filter]
  congr 1
  apply List.filter_congr
  intro a _
  rw [Bool.and_comm]

/-- The external field resolution used in concrete examples: read the
attribute and render it as a string. -/
def fvProbe : PyObj → String → String :=
  fun r f => pyStr (getattrDefault r f)

/-- A concrete CURRENT-dialect request: global text `am`, column `id` not
searchable, column `name` searchable, and a per-column search on `id`. -/
def qdC3 : QueryDict :=
  [("search[value]", "am"),
   ("columns[0][name]", "id"), ("columns[0][searchable]", "false"),
   ("columns[0][search][value]", "1"),
   ("columns[1][name]", "name"), ("columns[1][searchable]", "true")]

/-- C3, witness at the concrete request `qdC3`. -/
theorem c3_witness :
    filter_queryset qdC3 false ["id", "name"]
        (extract_datatables_column_data qdC3 false) "istartswith" fvProbe
        [rowProbe "1" "Bob", rowProbe "2" "Amy", rowProbe "3" "Zoe"] =
      .ok (([rowProbe "1" "Bob", rowProbe "2" "Amy", rowProbe "3" "Zoe"]).filter
        fun r =>
          perColOK fvProbe "istartswith" ["id", "name"]
              (extract_datatables_column_data qdC3 false) r &&
            globalOK fvProbe "istartswith" (qdC3.get "search[value]")
              ["id", "name"] (extract_datatables_column_data qdC3 false) r) :=
  c3_filter_global_only_searchable fvProbe "istartswith" qdC3 ["id", "name"]
    (extract_datatables_column_data qdC3 false)
    [rowProbe "1" "Bob", rowProbe "2" "Amy", rowProbe "3" "Zoe"] (by decide)

end DDV